import Mathlib

/-!
Verification development for the `calendar_push` repository: a webhook
service that synchronizes Square booking notifications into an iCloud
calendar.  The definitions below are a shallow embedding of
`src/index.js` and `src/booking_to_event.js`: pure JavaScript functions
become Lean functions, JavaScript `||`-fallback chains on possibly
absent fields become explicit operations on `Option String`, timestamps
become integer milliseconds, and the remote HTTP collaborators are
modelled by their response status codes.
-/

namespace CalendarPush

/-- ASCII uppercasing of a single character, as JavaScript
`String.prototype.toUpperCase` behaves on ASCII input. -/
def upperChar (c : Char) : Char :=
  if 'a' ≤ c ∧ c ≤ 'z' then Char.ofNat (c.toNat - 32) else c

/-- ASCII lowercasing of a single character. -/
def lowerChar (c : Char) : Char :=
  if 'A' ≤ c ∧ c ≤ 'Z' then Char.ofNat (c.toNat + 32) else c

/-- `s.toUpperCase()` on ASCII strings. -/
def upperAscii (s : String) : String := String.mk (s.data.map upperChar)

/-- `s.toLowerCase()` on ASCII strings. -/
def lowerAscii (s : String) : String := String.mk (s.data.map lowerChar)

/-- Does the list begin with the given pattern? -/
def listBeginsWith (l pat : List Char) : Bool :=
  match l, pat with
  | _, [] => true
  | [], _ :: _ => false
  | a :: as, b :: bs => a = b && listBeginsWith as bs

/-- Does the list contain the pattern as a contiguous sublist? -/
def listHasInfix (l pat : List Char) : Bool :=
  match l with
  | [] => pat.isEmpty
  | _ :: t => listBeginsWith l pat || listHasInfix t pat

/-- JavaScript `haystack.includes(needle)`: substring containment. -/
def containsSubstr (haystack needle : String) : Bool :=
  listHasInfix haystack.data needle.data

/-- Truthiness of a possibly-absent JavaScript string value:
`undefined`/`null` and the empty string are falsy. -/
def jsTruthy (o : Option String) : Bool :=
  match o with
  | none => false
  | some s => s ≠ ""

/-- `a || b` where `a` is a possibly-absent string and `b` a string:
the JavaScript fallback chain used for defaults. -/
def jsOrS (a : Option String) (b : String) : String :=
  match a with
  | some s => if s = "" then b else s
  | none => b

/-- `a || b || null`: first truthy value of two possibly-absent strings,
normalised to `none` when both are falsy. -/
def jsOrOpt (a b : Option String) : Option String :=
  if jsTruthy a then a else if jsTruthy b then b else none

/-! ## Data model

A booking record as consumed by the pipeline (`src/index.js`).  Only the
fields the code reads are modelled.  Timestamps are integer epoch
milliseconds. -/

/-- One appointment segment of a booking; the code reads only
`duration_minutes`, which may be `null`. -/
structure AppointmentSegment where
  durationMinutes : Option Nat
deriving DecidableEq, Repr

/-- A booking record (fields read by `src/index.js`). -/
structure Booking where
  id : String
  status : Option String
  bookingStatus : Option String
  startAt : Int
  appointmentSegments : List AppointmentSegment
  customerId : Option String
  canceledAt : Option String
  cancelledAt : Option String
  cancellationReason : Option String
deriving DecidableEq, Repr

/-- `booking.status || booking.booking_status || ''`
(src/index.js line 266). -/
def statusRaw (b : Booking) : String :=
  jsOrS b.status (jsOrS b.bookingStatus "")

/-- `booking.canceled_at || booking.cancelled_at || null`
(src/index.js line 268). -/
def canceledAtVal (b : Booking) : Option String :=
  jsOrOpt b.canceledAt b.cancelledAt

/-- `booking.cancellation_reason || null` (src/index.js line 269). -/
def cancelReasonVal (b : Booking) : Option String :=
  jsOrOpt b.cancellationReason none

/-- Result of the booking status classifier. -/
inductive Status where
  | Active
  | Cancelled
deriving DecidableEq, Repr

/-- The booking status classifier embedded in `processBookingRouter`
(src/index.js lines 266-277): `isCancelled = status.includes('CANCEL')
|| status === 'NO_SHOW' || !!canceledAt || !!cancelReason` where
`status` is the uppercased raw status. -/
def classify (b : Booking) : Status :=
  let status := upperAscii (statusRaw b)
  if containsSubstr status "CANCEL" || status == "NO_SHOW"
      || jsTruthy (canceledAtVal b) || jsTruthy (cancelReasonVal b)
  then Status.Cancelled else Status.Active

/-- `` `${booking.id}@lilsicecream` `` (src/index.js lines 203 and 219):
the calendar object identifier derived from a booking id. -/
def uidOf (bookingId : String) : String := bookingId ++ "@lilsicecream"

/-! ## Lemmas about truthiness -/

theorem jsTruthy_eq_isSome (o : Option String) (h : o ≠ some "") :
    jsTruthy o = o.isSome := by
  cases o with
  | none => rfl
  | some s =>
    have hs : s ≠ "" := fun hs => h (by rw [hs])
    simp [jsTruthy, hs]

/-- C1: the classifier returns `Cancelled` exactly when the uppercased
status contains `"CANCEL"`, the uppercased status is the no-show marker
`"NO_SHOW"`, a cancelled-at timestamp is present, or a cancellation
reason is present; otherwise it returns `Active`, and being a plain
Lean function it is total with no error case.  The hypotheses say the
optional fields, when present, are non-empty strings (a present-but-empty
field is falsy in the JavaScript source). -/
theorem classify_cancelled_iff (b : Booking)
    (h1 : b.canceledAt ≠ some "") (h2 : b.cancelledAt ≠ some "")
    (h3 : b.cancellationReason ≠ some "") :
    (classify b = Status.Cancelled ↔
      (containsSubstr (upperAscii (statusRaw b)) "CANCEL" = true ∨
       upperAscii (statusRaw b) = "NO_SHOW" ∨
       b.canceledAt.isSome = true ∨ b.cancelledAt.isSome = true ∨
       b.cancellationReason.isSome = true)) ∧
    (classify b = Status.Active ↔
      ¬ (containsSubstr (upperAscii (statusRaw b)) "CANCEL" = true ∨
         upperAscii (statusRaw b) = "NO_SHOW" ∨
         b.canceledAt.isSome = true ∨ b.cancelledAt.isSome = true ∨
         b.cancellationReason.isSome = true)) := by
  have hca : jsTruthy (canceledAtVal b) =
      (b.canceledAt.isSome || b.cancelledAt.isSome) := by
    unfold canceledAtVal jsOrOpt
    cases hc : b.canceledAt with
    | none =>
      cases hc2 : b.cancelledAt with
      | none => simp [jsTruthy]
      | some s =>
        have hs : s ≠ "" := fun h => h2 (by rw [hc2, h])
        simp [jsTruthy, hs]
    | some s =>
      have hs : s ≠ "" := fun h => h1 (by rw [hc, h])
      simp [jsTruthy, hs]
  have hcr : jsTruthy (cancelReasonVal b) = b.cancellationReason.isSome := by
    unfold cancelReasonVal jsOrOpt
    cases hc : b.cancellationReason with
    | none => simp [jsTruthy]
    | some s =>
      have hs : s ≠ "" := fun h => h3 (by rw [hc, h])
      simp [jsTruthy, hs]
  have key : classify b = Status.Cancelled ↔
      (containsSubstr (upperAscii (statusRaw b)) "CANCEL" = true ∨
       upperAscii (statusRaw b) = "NO_SHOW" ∨
       b.canceledAt.isSome = true ∨ b.cancelledAt.isSome = true ∨
       b.cancellationReason.isSome = true) := by
    unfold classify
    rw [hca, hcr]
    by_cases hcond : (containsSubstr (upperAscii (statusRaw b)) "CANCEL"
        || upperAscii (statusRaw b) == "NO_SHOW"
        || (b.canceledAt.isSome || b.cancelledAt.isSome)
        || b.cancellationReason.isSome) = true
    · rw [if_pos hcond]
      simp only [Bool.or_eq_true, beq_iff_eq] at hcond
      exact ⟨fun _ => by tauto, fun _ => rfl⟩
    · rw [if_neg hcond]
      simp only [Bool.or_eq_true, beq_iff_eq] at hcond
      push_neg at hcond
      constructor
      · intro h; cases h
      · intro h; exfalso; tauto
  refine ⟨key, ?_, ?_⟩
  · intro hA hP
    have hc := key.mpr hP
    rw [hA] at hc
    exact Status.noConfusion hc
  · intro hnP
    cases hcl : classify b with
    | Active => rfl
    | Cancelled => exact absurd (key.mp hcl) hnP

/-- Witness for `classify_cancelled_iff` at a concrete cancelled booking. -/
theorem classify_cancelled_iff_witness :
    let b : Booking :=
      { id := "B1", status := some "CANCELLED_BY_SELLER",
        bookingStatus := none, startAt := 0, appointmentSegments := [],
        customerId := none, canceledAt := none, cancelledAt := none,
        cancellationReason := none }
    (classify b = Status.Cancelled ↔
      (containsSubstr (upperAscii (statusRaw b)) "CANCEL" = true ∨
       upperAscii (statusRaw b) = "NO_SHOW" ∨
       b.canceledAt.isSome = true ∨ b.cancelledAt.isSome = true ∨
       b.cancellationReason.isSome = true)) ∧
    (classify b = Status.Active ↔
      ¬ (containsSubstr (upperAscii (statusRaw b)) "CANCEL" = true ∨
         upperAscii (statusRaw b) = "NO_SHOW" ∨
         b.canceledAt.isSome = true ∨ b.cancelledAt.isSome = true ∨
         b.cancellationReason.isSome = true)) :=
  classify_cancelled_iff _ (by simp) (by simp) (by simp)

/-- C6: the uid derivation is a pure deterministic function of the
booking id alone — the id followed by the fixed suffix
`"@lilsicecream"` — so repeated derivations agree and distinct booking
ids give distinct uids. -/
theorem uidOf_deterministic_injective (a b : String) :
    uidOf a = uidOf a ∧ (a ≠ b → uidOf a ≠ uidOf b) := by
  refine ⟨rfl, fun hne heq => hne ?_⟩
  have hdata : a.data ++ "@lilsicecream".data =
      b.data ++ "@lilsicecream".data := by
    have h := congrArg String.data heq
    simpa [uidOf, String.data_append] using h
  have hd : a.data = b.data := List.append_cancel_right hdata
  cases a with
  | mk da =>
    cases b with
    | mk db => exact congrArg String.mk (by simpa using hd)

/-- Witness for `uidOf_deterministic_injective` at concrete booking ids. -/
theorem uidOf_deterministic_injective_witness :
    uidOf "B1" = uidOf "B1" ∧ ("B1" ≠ "B2" → uidOf "B1" ≠ uidOf "B2") :=
  uidOf_deterministic_injective "B1" "B2"

/-! ## Dedup gate (src/index.js lines 251-261)

The JavaScript `Map` is modelled as an insertion-ordered association
list from notification id to expiry time (epoch milliseconds).  The
`for (const [k, v] of seen) if (v < now) seen.delete(k)` loop is the
filter keeping entries whose expiry has not passed. -/

/-- Process-local dedup table: notification id paired with `expiresAt`. -/
abbrev DedupState := List (String × Nat)

/-- `DEDUPE_TTL_MS = 10 * 60 * 1000` (src/index.js line 253). -/
def DEDUPE_TTL_MS : Nat := 10 * 60 * 1000

/-- The purge loop: drop every entry whose expiry is strictly before
`now`. -/
def purgeExpired (now : Nat) (st : DedupState) : DedupState :=
  st.filter (fun e => !(e.2 < now : Bool))

/-- `seen.has(id)`. -/
def hasId (id : String) (st : DedupState) : Bool :=
  st.any (fun e => e.1 == id)

/-- Expiry currently stored for `id`, if any. -/
def lookupId (id : String) (st : DedupState) : Option Nat :=
  (st.find? (fun e => e.1 == id)).map (·.2)

/-- `seen.set(id, v)`: overwrite in place if present, else append. -/
def mapSet (id : String) (v : Nat) (st : DedupState) : DedupState :=
  if hasId id st then
    st.map (fun e => if e.1 == id then (e.1, v) else e)
  else st ++ [(id, v)]

/-- `isDuplicate(eventId)` (src/index.js lines 254-261), with the
current time and the table passed explicitly.  An absent id is
modelled as the empty string (`!eventId` is true for both `null` and
`''`).  Returns the boolean answer and the table after the call. -/
def isDuplicate (eventId : String) (now : Nat) (st : DedupState) :
    Bool × DedupState :=
  if eventId = "" then (false, st)
  else
    let st1 := purgeExpired now st
    if hasId eventId st1 then (true, st1)
    else (false, mapSet eventId (now + DEDUPE_TTL_MS) st1)

theorem lookupId_mapSet_absent (id : String) (v : Nat) (st : DedupState)
    (h : hasId id st = false) :
    lookupId id (mapSet id v st) = some v := by
  unfold mapSet
  rw [if_neg (by simp [h])]
  unfold lookupId
  induction st with
  | nil => simp
  | cons e t ih =>
    unfold hasId at h ih
    simp only [List.any_cons, Bool.or_eq_false_iff] at h
    simp only [List.cons_append, List.find?_cons, h.1]
    exact ih h.2

/-- C3: the dedup gate answers "process" (`false`) on an empty id and
leaves the table untouched; on a non-empty id it first purges expired
entries, then answers "duplicate" (`true`) leaving the purged table —
and the stored expiry for the id — unchanged when the id is present,
and otherwise records the id with expiry `now + DEDUPE_TTL_MS`
(ten minutes) and answers "process". -/
theorem isDuplicate_spec (id : String) (now : Nat) (st : DedupState) :
    (id = "" → isDuplicate id now st = (false, st)) ∧
    (id ≠ "" → hasId id (purgeExpired now st) = true →
      isDuplicate id now st = (true, purgeExpired now st) ∧
      lookupId id (isDuplicate id now st).2 =
        lookupId id (purgeExpired now st)) ∧
    (id ≠ "" → hasId id (purgeExpired now st) = false →
      isDuplicate id now st =
        (false, mapSet id (now + 10 * 60 * 1000) (purgeExpired now st)) ∧
      lookupId id (isDuplicate id now st).2 = some (now + 10 * 60 * 1000)) := by
  refine ⟨fun h => by simp [isDuplicate, h], fun h hin => ?_, fun h hout => ?_⟩
  · have heq : isDuplicate id now st = (true, purgeExpired now st) := by
      unfold isDuplicate
      rw [if_neg h]
      simp only [hin, if_pos]
    exact ⟨heq, by rw [heq]⟩
  · have heq : isDuplicate id now st =
        (false, mapSet id (now + 10 * 60 * 1000) (purgeExpired now st)) := by
      unfold isDuplicate
      rw [if_neg h]
      simp [hout, DEDUPE_TTL_MS]
    refine ⟨heq, ?_⟩
    rw [heq]
    exact lookupId_mapSet_absent id _ _ hout

/-- Witness for `isDuplicate_spec`: a fresh id is recorded with a
ten-minute expiry, and an empty id is passed through. -/
theorem isDuplicate_spec_witness :
    (("" : String) = "" → isDuplicate "" 5 [("x", 9)] = (false, [("x", 9)])) ∧
    (("a" : String) ≠ "" → hasId "a" (purgeExpired 5 [("x", 9)]) = true →
      isDuplicate "a" 5 [("x", 9)] = (true, purgeExpired 5 [("x", 9)]) ∧
      lookupId "a" (isDuplicate "a" 5 [("x", 9)]).2 =
        lookupId "a" (purgeExpired 5 [("x", 9)])) ∧
    (("a" : String) ≠ "" → hasId "a" (purgeExpired 5 [("x", 9)]) = false →
      isDuplicate "a" 5 [("x", 9)] =
        (false, mapSet "a" (5 + 10 * 60 * 1000) (purgeExpired 5 [("x", 9)])) ∧
      lookupId "a" (isDuplicate "a" 5 [("x", 9)]).2 =
        some (5 + 10 * 60 * 1000)) :=
  isDuplicate_spec "a" 5 [("x", 9)] |>.elim
    (fun _ rest => ⟨fun _ => by decide, rest⟩)

/-! ## Tolerant delete (src/index.js lines 151-175)

`deleteIcloudEvent` issues an HTTP `DELETE` for `<calUrl>/<uid>.ics`.
The response handling is from the source: a 404 status is success, any
other non-`ok` status throws, an `ok` status is success.  The remote
store itself is not in the repository; its delete-by-address semantics
are modelled from the spec. -/

/-- An HTTP-like response, reduced to its status code. -/
structure HttpResponse where
  status : Nat
deriving DecidableEq, Repr

/-- `res.ok`: status in the 200-299 range. -/
def resOk (r : HttpResponse) : Bool :=
  decide (200 ≤ r.status) && decide (r.status < 300)

/-- The response handling of `deleteIcloudEvent` (src/index.js lines
166-174): 404 returns normally, any other non-ok status throws, an ok
status returns normally. -/
def deleteOutcome (r : HttpResponse) : Except String Unit :=
  if r.status = 404 then Except.ok ()
  else if !(resOk r) then
    Except.error ("CalDAV DELETE failed " ++ toString r.status)
  else Except.ok ()

/-- Modelled from the spec: the remote calendar store's response to a
`DELETE` at an object address — the repository only contains the
client, not the store.  Deleting an existing object succeeds (204 No
Content); deleting an absent object answers 404 (§4.5: "Object not
found" / tolerant delete). -/
def storeDeleteResponse (store : List String) (uid : String) : HttpResponse :=
  if uid ∈ store then ⟨204⟩ else ⟨404⟩

/-- Modelled from the spec: the store's state after a `DELETE` — the
object at the address is gone. -/
def storeAfterDelete (store : List String) (uid : String) : List String :=
  store.filter (fun s => s ≠ uid)

/-- `deleteIcloudEvent` against the modelled store: apply the source's
response handling to the store's response; on success the object is
absent from the resulting store. -/
def deleteIcloudEvent (store : List String) (uid : String) :
    Except String (List String) :=
  match deleteOutcome (storeDeleteResponse store uid) with
  | Except.ok _ => Except.ok (storeAfterDelete store uid)
  | Except.error e => Except.error e

/-- C4: a 404 from the store is treated as success — deleting a uid
with no remote object returns normally with the store unchanged; any
other non-success response is an explicit error; and deleting the same
uid twice equals deleting it once. -/
theorem deleteIcloudEvent_tolerant (store : List String) (uid : String) :
    (uid ∉ store → deleteIcloudEvent store uid = Except.ok store) ∧
    (∀ r : HttpResponse, r.status ≠ 404 → resOk r = false →
      deleteOutcome r =
        Except.error ("CalDAV DELETE failed " ++ toString r.status)) ∧
    ((deleteIcloudEvent store uid).bind (fun s => deleteIcloudEvent s uid) =
      deleteIcloudEvent store uid) := by
  have hok : ∀ s : List String, deleteIcloudEvent s uid =
      Except.ok (storeAfterDelete s uid) := by
    intro s
    unfold deleteIcloudEvent deleteOutcome storeDeleteResponse
    by_cases h : uid ∈ s
    · simp [h, resOk]
    · simp [h]
  refine ⟨fun hnotin => ?_, fun r h404 hnok => ?_, ?_⟩
  · rw [hok store]
    congr 1
    unfold storeAfterDelete
    exact List.filter_eq_self.mpr (fun s hs => by
      simp only [decide_eq_true_eq]
      exact fun heq => hnotin (heq ▸ hs))
  · unfold deleteOutcome
    rw [if_neg h404, hnok]
    rfl
  · rw [hok store]
    simp only [Except.bind]
    rw [hok (storeAfterDelete store uid)]
    congr 1
    unfold storeAfterDelete
    rw [List.filter_filter]
    exact List.filter_congr (fun s _ => by simp)

/-- Witness for `deleteIcloudEvent_tolerant`: deleting a uid absent
from a concrete store succeeds and idempotence holds there. -/
theorem deleteIcloudEvent_tolerant_witness :
    (("B1@lilsicecream" : String) ∉ (["other.ics"] : List String) →
      deleteIcloudEvent ["other.ics"] "B1@lilsicecream" =
        Except.ok ["other.ics"]) ∧
    (∀ r : HttpResponse, r.status ≠ 404 → resOk r = false →
      deleteOutcome r =
        Except.error ("CalDAV DELETE failed " ++ toString r.status)) ∧
    ((deleteIcloudEvent ["other.ics"] "B1@lilsicecream").bind
        (fun s => deleteIcloudEvent s "B1@lilsicecream") =
      deleteIcloudEvent ["other.ics"] "B1@lilsicecream") :=
  deleteIcloudEvent_tolerant ["other.ics"] "B1@lilsicecream"

/-! ## Event projection (src/index.js lines 178-204)

The pure part of `processBooking`: deriving the calendar-event record
from a booking and the optionally fetched customer.  A failed or
skipped customer fetch is the `none` argument. -/

/-- A postal address (fields read by `formatAddress`). -/
structure Address where
  line1 : Option String
  locality : Option String
  region : Option String
  postalCode : Option String
  country : Option String
deriving DecidableEq, Repr

/-- A customer record (fields read by `processBooking`). -/
structure Customer where
  givenName : Option String
  familyName : Option String
  address : Option Address
  phoneNumber : Option String
deriving DecidableEq, Repr

/-- `formatAddress(addr)` (src/index.js lines 42-49): empty string for
an absent address, otherwise the non-falsy components joined with
`", "` in order line1, locality, region, postal code, country. -/
def formatAddress (addr : Option Address) : String :=
  match addr with
  | none => ""
  | some a =>
    String.intercalate ", "
      (([a.line1, a.locality, a.region, a.postalCode, a.country].filterMap
          id).filter (fun s => s != ""))

/-- JavaScript whitespace for `trim` (the characters that occur here). -/
def isJsSpace (c : Char) : Bool :=
  c = ' ' || c = '\t' || c = '\n' || c = '\r'

/-- `s.trim()`: strip leading and trailing whitespace. -/
def trimStr (s : String) : String :=
  String.mk (((s.data.dropWhile isJsSpace).reverse.dropWhile isJsSpace).reverse)

/-- The calendar-event record computed by the pipeline. -/
structure EventRecord where
  uid : String
  summary : String
  location : String
  description : String
  startAt : Int
  endAt : Int
deriving DecidableEq, Repr

/-- The pure projection inside `processBooking` (src/index.js lines
180-204): duration from the first appointment segment defaulting to
60, end = start + duration minutes, name/address/phone defaults when
the customer is absent, summary `"Truck Event – " + fullName`,
description lines, and the uid. -/
def bookingToEvent (b : Booking) (customer : Option Customer) : EventRecord :=
  let durMin : Nat :=
    match b.appointmentSegments.head? with
    | some seg => seg.durationMinutes.getD 60
    | none => 60
  let endAt : Int := b.startAt + (durMin : Int) * 60000
  let first := match customer with | some c => c.givenName.getD "" | none => ""
  let last := match customer with | some c => c.familyName.getD "" | none => ""
  let addressLine :=
    match customer with
    | some c => jsOrS (some (formatAddress c.address)) "TBD"
    | none => "TBD"
  let phone :=
    match customer with | some c => c.phoneNumber.getD "" | none => ""
  let fullName := jsOrS (some (trimStr (first ++ " " ++ last))) "Customer"
  let summary := "Truck Event – " ++ fullName
  let descriptionLines :=
    ["Square: https://squareup.com/dashboard/appointments (Booking ID: "
        ++ b.id ++ ")"]
      ++ (if phone != "" then ["Phone: " ++ phone] else [])
  { uid := uidOf b.id, summary := summary, location := addressLine,
    description := String.intercalate "\n" descriptionLines,
    startAt := b.startAt, endAt := endAt }

/-- C5: projecting a booking with no customer record and no duration in
its first appointment segment yields location `"TBD"`, the summary
`"Truck Event – Customer"` (which contains `"Customer"`), and an end
timestamp exactly 60 minutes (3 600 000 ms) after the start. -/
theorem bookingToEvent_defaults (b : Booking)
    (hd : b.appointmentSegments.head?.bind AppointmentSegment.durationMinutes
        = none) :
    (bookingToEvent b none).location = "TBD" ∧
    (bookingToEvent b none).summary = "Truck Event – Customer" ∧
    containsSubstr (bookingToEvent b none).summary "Customer" = true ∧
    (bookingToEvent b none).endAt - (bookingToEvent b none).startAt
      = 60 * 60000 := by
  have hsum : (bookingToEvent b none).summary = "Truck Event – Customer" := rfl
  refine ⟨rfl, hsum, ?_, ?_⟩
  · rw [hsum]; decide
  · simp only [bookingToEvent]
    cases hseg : b.appointmentSegments.head? with
    | none => push_cast; omega
    | some seg =>
      rw [hseg] at hd
      have hdm : seg.durationMinutes = none := by simpa using hd
      simp only [hdm, Option.getD_none]
      push_cast
      omega

/-- Witness for `bookingToEvent_defaults` at a concrete booking with
no segments and no customer. -/
theorem bookingToEvent_defaults_witness :
    let b : Booking :=
      { id := "B9", status := some "ACCEPTED", bookingStatus := none,
        startAt := 1748800800000, appointmentSegments := [],
        customerId := none, canceledAt := none, cancelledAt := none,
        cancellationReason := none }
    (bookingToEvent b none).location = "TBD" ∧
    (bookingToEvent b none).summary = "Truck Event – Customer" ∧
    containsSubstr (bookingToEvent b none).summary "Customer" = true ∧
    (bookingToEvent b none).endAt - (bookingToEvent b none).startAt
      = 60 * 60000 :=
  bookingToEvent_defaults _ (by decide)

/-! ## Webhook handler (src/index.js lines 291-320)

The `POST /webhooks/square` route, embedded as a pure function of the
parsed request body, the clock, the dedup table, the
`SEND_EMAIL_ON_UPDATED` environment value, and an oracle giving the
outcome of `processBookingRouter` (which performs all booking fetches,
classification, calendar writes, deletes, and emails).  The `try`/
`catch` wrapping the route body is the error branch of the oracle. -/

/-- The fields of the JSON request body the route reads. -/
structure WebhookBody where
  bodyType : Option String
  eventTypeAlt : Option String
  eventIdField : Option String
  idField : Option String
  dataObjectBookingId : Option String
  dataId : Option String
deriving DecidableEq, Repr

/-- `req.body?.type || req.body?.event_type || 'unknown'` (line 293). -/
def eventTypeOf (body : WebhookBody) : String :=
  jsOrS body.bodyType (jsOrS body.eventTypeAlt "unknown")

/-- `req.body?.event_id || req.body?.id || null` (line 294). -/
def eventIdOf (body : WebhookBody) : Option String :=
  jsOrOpt body.eventIdField body.idField

/-- `req.body?.data?.object?.booking?.id || req.body?.data?.id || null`
(line 295). -/
def bookingIdOf (body : WebhookBody) : Option String :=
  jsOrOpt body.dataObjectBookingId body.dataId

/-- `/^booking\.(created|updated|canceled|cancelled)$/i.test(eventType)`
(line 308): a case-insensitive full match against the four recognized
event kinds. -/
def matchesEventKind (s : String) : Bool :=
  let l := lowerAscii s
  l == "booking.created" || l == "booking.updated"
    || l == "booking.canceled" || l == "booking.cancelled"

/-- `(process.env.SEND_EMAIL_ON_UPDATED || 'false').toLowerCase() ===
'true'` (line 311). -/
def emailUpdFlag (env : Option String) : Bool :=
  lowerAscii (jsOrS env "false") == "true"

/-- The `shouldEmail` computation (lines 309-311): case-sensitive
strict equality against `'booking.created'` and `'booking.updated'`. -/
def shouldEmailFor (s : String) (updFlag : Bool) : Bool :=
  s == "booking.created" || (s == "booking.updated" && updFlag)

/-- `s.startsWith(pre)`. -/
def strStartsWith (s pre : String) : Bool :=
  listBeginsWith s.data pre.data

/-- Observable outcome of one webhook call: the HTTP status sent to
the sender, the dedup table afterwards, the booking id passed to
`processBookingRouter` (if it was invoked), the `shouldEmail` flag
passed to it, and the error logged by the `catch` block (if any). -/
structure WebhookResult where
  status : Nat
  dedupState : DedupState
  routerCalled : Option String
  emailRequested : Bool
  loggedError : Option String
deriving DecidableEq, Repr

/-- The route body (src/index.js lines 291-320).  `routerResult bid
shouldEmail` is the outcome of `await processBookingRouter(bid,
{shouldEmail})`; an exception anywhere in processing surfaces as its
`error` case and is caught by the route's `catch`, which logs it and
still sends 200. -/
def handleWebhook (body : WebhookBody) (now : Nat) (st : DedupState)
    (sendEmailOnUpdatedEnv : Option String)
    (routerResult : String → Bool → Except String Unit) : WebhookResult :=
  let eventType := eventTypeOf body
  let eventId := eventIdOf body
  let bookingId := bookingIdOf body
  let dup := isDuplicate (eventId.getD "") now st
  if dup.1 then
    { status := 200, dedupState := dup.2, routerCalled := none,
      emailRequested := false, loggedError := none }
  else
    match bookingId with
    | none =>
      { status := 200, dedupState := dup.2, routerCalled := none,
        emailRequested := false, loggedError := none }
    | some bid =>
      if strStartsWith bid "TEST" then
        { status := 200, dedupState := dup.2, routerCalled := none,
          emailRequested := false, loggedError := none }
      else if matchesEventKind eventType then
        let shouldEmail :=
          shouldEmailFor eventType (emailUpdFlag sendEmailOnUpdatedEnv)
        match routerResult bid shouldEmail with
        | Except.ok _ =>
          { status := 200, dedupState := dup.2, routerCalled := some bid,
            emailRequested := shouldEmail, loggedError := none }
        | Except.error e =>
          { status := 200, dedupState := dup.2, routerCalled := some bid,
            emailRequested := shouldEmail, loggedError := some e }
      else
        { status := 200, dedupState := dup.2, routerCalled := none,
          emailRequested := false, loggedError := none }

/-- C7: every webhook call reaches a terminal state whose reply status
is 200, whatever the body, the dedup table, and the outcome of internal
processing; when internal processing fails, the failure is logged and
still answered with 200. -/
theorem handleWebhook_acknowledges (body : WebhookBody) (now : Nat)
    (st : DedupState) (env : Option String)
    (rr : String → Bool → Except String Unit) :
    (handleWebhook body now st env rr).status = 200 ∧
    (∀ bid e, (handleWebhook body now st env rr).routerCalled = some bid →
      rr bid (handleWebhook body now st env rr).emailRequested
        = Except.error e →
      (handleWebhook body now st env rr).loggedError = some e) := by
  by_cases hdup : (isDuplicate ((eventIdOf body).getD "") now st).1 = true
  · have hval : handleWebhook body now st env rr =
        { status := 200,
          dedupState := (isDuplicate ((eventIdOf body).getD "") now st).2,
          routerCalled := none, emailRequested := false,
          loggedError := none } := by
      simp [handleWebhook, hdup]
    rw [hval]
    exact ⟨rfl, fun bid e h => by simp at h⟩
  · have hdup' : (isDuplicate ((eventIdOf body).getD "") now st).1 = false := by
      simpa using hdup
    cases hbid : bookingIdOf body with
    | none =>
      have hval : handleWebhook body now st env rr =
          { status := 200,
            dedupState := (isDuplicate ((eventIdOf body).getD "") now st).2,
            routerCalled := none, emailRequested := false,
            loggedError := none } := by
        simp [handleWebhook, hdup', hbid]
      rw [hval]
      exact ⟨rfl, fun bid e h => by simp at h⟩
    | some bid0 =>
      by_cases htest : strStartsWith bid0 "TEST" = true
      · have hval : handleWebhook body now st env rr =
            { status := 200,
              dedupState := (isDuplicate ((eventIdOf body).getD "") now st).2,
              routerCalled := none, emailRequested := false,
              loggedError := none } := by
          simp [handleWebhook, hdup', hbid, htest]
        rw [hval]
        exact ⟨rfl, fun bid e h => by simp at h⟩
      · have htest' : strStartsWith bid0 "TEST" = false := by simpa using htest
        by_cases hkind : matchesEventKind (eventTypeOf body) = true
        · cases hrr0 : rr bid0
            (shouldEmailFor (eventTypeOf body) (emailUpdFlag env)) with
          | ok v =>
            have hval : handleWebhook body now st env rr =
                { status := 200,
                  dedupState :=
                    (isDuplicate ((eventIdOf body).getD "") now st).2,
                  routerCalled := some bid0,
                  emailRequested :=
                    shouldEmailFor (eventTypeOf body) (emailUpdFlag env),
                  loggedError := none } := by
              simp [handleWebhook, hdup', hbid, htest', hkind, hrr0]
            rw [hval]
            refine ⟨rfl, fun bid e h hrr => ?_⟩
            have hb : bid0 = bid := by simpa using h
            subst hb
            have hco : Except.ok v = Except.error e := by
              rw [← hrr0]
              simpa using hrr
            cases hco
          | error e0 =>
            have hval : handleWebhook body now st env rr =
                { status := 200,
                  dedupState :=
                    (isDuplicate ((eventIdOf body).getD "") now st).2,
                  routerCalled := some bid0,
                  emailRequested :=
                    shouldEmailFor (eventTypeOf body) (emailUpdFlag env),
                  loggedError := some e0 } := by
              simp [handleWebhook, hdup', hbid, htest', hkind, hrr0]
            rw [hval]
            refine ⟨rfl, fun bid e h hrr => ?_⟩
            have hb : bid0 = bid := by simpa using h
            subst hb
            have hco : (Except.error e0 : Except String Unit)
                = Except.error e := by
              rw [← hrr0]
              simpa using hrr
            simpa using hco
        · have hkind' : matchesEventKind (eventTypeOf body) = false := by
            simpa using hkind
          have hval : handleWebhook body now st env rr =
              { status := 200,
                dedupState :=
                  (isDuplicate ((eventIdOf body).getD "") now st).2,
                routerCalled := none, emailRequested := false,
                loggedError := none } := by
            simp [handleWebhook, hdup', hbid, htest', hkind']
          rw [hval]
          exact ⟨rfl, fun bid e h => by simp at h⟩

/-- Witness for `handleWebhook_acknowledges`: a creation notification
whose processing throws is still answered 200 and the error is
logged. -/
theorem handleWebhook_acknowledges_witness :
    let body : WebhookBody :=
      { bodyType := some "booking.created", eventTypeAlt := none,
        eventIdField := some "ev1", idField := none,
        dataObjectBookingId := some "B1", dataId := none }
    let rr : String → Bool → Except String Unit :=
      fun _ _ => Except.error "boom"
    (handleWebhook body 0 [] none rr).status = 200 ∧
    (handleWebhook body 0 [] none rr).loggedError = some "boom" :=
  ⟨(handleWebhook_acknowledges _ 0 [] none _).1,
   (handleWebhook_acknowledges _ 0 [] none _).2 "B1" "boom" rfl rfl⟩

/-- C9: a webhook whose extracted booking id is absent (or falsy) or
begins with `"TEST"` is acknowledged with 200 without invoking
`processBookingRouter` — hence without any booking fetch,
classification, calendar write, delete, or email — whatever the event
kind. -/
theorem handleWebhook_test_noop (body : WebhookBody) (now : Nat)
    (st : DedupState) (env : Option String)
    (rr : String → Bool → Except String Unit)
    (h : bookingIdOf body = none ∨
      ∃ bid, bookingIdOf body = some bid ∧ strStartsWith bid "TEST" = true) :
    (handleWebhook body now st env rr).status = 200 ∧
    (handleWebhook body now st env rr).routerCalled = none ∧
    (handleWebhook body now st env rr).emailRequested = false ∧
    (handleWebhook body now st env rr).loggedError = none := by
  simp only [handleWebhook]
  split
  · exact ⟨rfl, rfl, rfl, rfl⟩
  · rcases h with h | ⟨bid, hbid, htest⟩
    · simp [h]
    · simp [hbid, htest]

/-- Witness for `handleWebhook_test_noop`: a `TEST`-prefixed booking id
on a recognized creation event is a no-op answered 200. -/
theorem handleWebhook_test_noop_witness :
    let body : WebhookBody :=
      { bodyType := some "booking.created", eventTypeAlt := none,
        eventIdField := none, idField := none,
        dataObjectBookingId := none, dataId := some "TEST123" }
    let rr : String → Bool → Except String Unit :=
      fun _ _ => Except.error "must not run"
    (handleWebhook body 0 [] none rr).status = 200 ∧
    (handleWebhook body 0 [] none rr).routerCalled = none ∧
    (handleWebhook body 0 [] none rr).emailRequested = false ∧
    (handleWebhook body 0 [] none rr).loggedError = none :=
  handleWebhook_test_noop _ 0 [] none _
    (Or.inr ⟨"TEST123", rfl, by decide⟩)

/-- C8 counterexample: `"Booking.Created"` is a recognized
creation-type event kind (the recognition regex is case-insensitive),
yet the email side channel is not requested for it, because the
`shouldEmail` comparison is case-sensitive. -/
theorem email_policy_counterexample :
    matchesEventKind "Booking.Created" = true ∧
    shouldEmailFor "Booking.Created" true = false := by decide

/-- C8 (amended): event kinds are recognized case-insensitively
(creation, update, and the two spellings of cancellation), but the
email side channel is requested exactly when the event kind is the
lowercase `"booking.created"` verbatim, or is the lowercase
`"booking.updated"` verbatim and the update-email flag is enabled —
the email check is case-sensitive, unlike the recognition. -/
theorem email_policy_amended (s : String) (updFlag : Bool) :
    (matchesEventKind s = true ↔
      (lowerAscii s = "booking.created" ∨ lowerAscii s = "booking.updated" ∨
       lowerAscii s = "booking.canceled" ∨
       lowerAscii s = "booking.cancelled")) ∧
    (shouldEmailFor s updFlag = true ↔
      (s = "booking.created" ∨ (s = "booking.updated" ∧ updFlag = true))) := by
  constructor
  · simp only [matchesEventKind, Bool.or_eq_true, beq_iff_eq]
    tauto
  · simp only [shouldEmailFor, Bool.or_eq_true, Bool.and_eq_true, beq_iff_eq]

/-! ## ICS codec (src/index.js lines 63-83; src/booking_to_event.js
lines 54-99)

Strings are modelled by their character lists where the escape
machinery needs to recurse.  `String.prototype.replace` with a
single-character pattern and the `g` flag is `replaceChar`;
`/\r?\n/g` is `replaceCRLF`, the left-to-right scan replacing CRLF
(two characters) or LF (one character) with literal backslash-n. -/

/-- `s.replace(/c/g, r)` for a single-character pattern `c`. -/
def replaceChar (c : Char) (r : List Char) : List Char → List Char
  | [] => []
  | a :: t => (if a = c then r else [a]) ++ replaceChar c r t

/-- `s.replace(/\r?\n/g, '\\n')`: leftmost-first global replacement of
CRLF or LF by the two characters backslash, `n`.  A lone CR is not
matched. -/
def replaceCRLF : List Char → List Char
  | [] => []
  | [a] => if a = '\n' then ['\\', 'n'] else [a]
  | a :: b :: t =>
    if a = '\n' then '\\' :: 'n' :: replaceCRLF (b :: t)
    else if a = '\r' ∧ b = '\n' then '\\' :: 'n' :: replaceCRLF t
    else a :: replaceCRLF (b :: t)

/-- `icsEscape` (src/index.js lines 69-71): backslash first, then
semicolon, then comma, then line breaks. -/
def icsEscape (l : List Char) : List Char :=
  replaceCRLF (replaceChar ',' ['\\', ',']
    (replaceChar ';' ['\\', ';'] (replaceChar '\\' ['\\', '\\'] l)))

/-- `icsEscape` as written in src/booking_to_event.js lines 69-75:
the same four-stage chain. -/
def icsEscapeBTE (l : List Char) : List Char :=
  replaceCRLF (replaceChar ',' ['\\', ',']
    (replaceChar ';' ['\\', ';'] (replaceChar '\\' ['\\', '\\'] l)))

/-- String-level `icsEscape`. -/
def icsEscapeStr (s : String) : String := String.mk (icsEscape s.data)

/-- The UTC components a JavaScript `Date` exposes through its getters
(`getUTCMonth` is 0-based, as in the source). -/
structure DateParts where
  year : Nat
  month0 : Nat
  day : Nat
  hour : Nat
  minute : Nat
  second : Nat
deriving DecidableEq, Repr

/-- `String(n).padStart(2, '0')`. -/
def pad2 (n : Nat) : String :=
  if n < 10 then "0" ++ toString n else toString n

/-- `toICSDate` (src/index.js lines 64-68), as a function of the
date's UTC components: the `YYYYMMDDTHHMMSSZ` template literal. -/
def toICSDate (d : DateParts) : String :=
  toString d.year ++ pad2 (d.month0 + 1) ++ pad2 d.day ++ "T"
    ++ pad2 d.hour ++ pad2 d.minute ++ pad2 d.second ++ "Z"

/-- `toICSDate` as written in src/booking_to_event.js lines 55-66:
`getUTCFullYear().toString()` followed by the same padded pieces. -/
def toICSDateBTE (d : DateParts) : String :=
  toString d.year ++ pad2 (d.month0 + 1) ++ pad2 d.day ++ "T"
    ++ pad2 d.hour ++ pad2 d.minute ++ pad2 d.second ++ "Z"

/-- The record passed to `buildICS`, with the start/end timestamps
already parsed to their UTC components. -/
structure ICSEvent where
  uid : String
  summary : String
  location : String
  description : String
  startD : DateParts
  endD : DateParts
deriving DecidableEq, Repr

/-- `buildICS` (src/index.js lines 72-83), with the encode-time clock
(`DTSTAMP`) passed explicitly: the fixed header/footer lines, one
VEVENT block, fields escaped, joined with CRLF, trailing CRLF. -/
def buildICS (nowD : DateParts) (e : ICSEvent) : String :=
  String.intercalate "\r\n"
    ["BEGIN:VCALENDAR", "VERSION:2.0",
     "PRODID:-//Lils Ice Cream//Bookings//EN", "CALSCALE:GREGORIAN",
     "METHOD:PUBLISH",
     "BEGIN:VEVENT",
     "UID:" ++ icsEscapeStr e.uid, "DTSTAMP:" ++ toICSDate nowD,
     "DTSTART:" ++ toICSDate e.startD, "DTEND:" ++ toICSDate e.endD,
     "SUMMARY:" ++ icsEscapeStr e.summary,
     "LOCATION:" ++ icsEscapeStr e.location,
     "DESCRIPTION:" ++ icsEscapeStr e.description,
     "END:VEVENT", "END:VCALENDAR", ""]

/-- `buildICS` as written in src/booking_to_event.js lines 77-99: the
same line list, one line per array element. -/
def buildICSBTE (nowD : DateParts) (e : ICSEvent) : String :=
  String.intercalate "\r\n"
    ["BEGIN:VCALENDAR",
     "VERSION:2.0",
     "PRODID:-//Lils Ice Cream//Bookings//EN",
     "CALSCALE:GREGORIAN",
     "METHOD:PUBLISH",
     "BEGIN:VEVENT",
     "UID:" ++ String.mk (icsEscapeBTE e.uid.data),
     "DTSTAMP:" ++ toICSDateBTE nowD,
     "DTSTART:" ++ toICSDateBTE e.startD,
     "DTEND:" ++ toICSDateBTE e.endD,
     "SUMMARY:" ++ String.mk (icsEscapeBTE e.summary.data),
     "LOCATION:" ++ String.mk (icsEscapeBTE e.location.data),
     "DESCRIPTION:" ++ String.mk (icsEscapeBTE e.description.data),
     "END:VEVENT",
     "END:VCALENDAR",
     ""]

/-- C10: the ICS codec duplicated across the two source files is the
same function — `toICSDate`, `icsEscape` and `buildICS` from
src/booking_to_event.js agree pointwise with their namesakes in
src/index.js, with `DTSTAMP` parameterized by the same encode-time
clock value. -/
theorem codec_duplicates_agree (d nowD : DateParts) (e : ICSEvent)
    (l : List Char) :
    toICSDateBTE d = toICSDate d ∧ icsEscapeBTE l = icsEscape l ∧
    buildICSBTE nowD e = buildICS nowD e :=
  ⟨rfl, rfl, rfl⟩

/-! ## Escape round-trip (claim on §4.4)

`escSpec` is the single-pass form of the four-stage `icsEscape`; the
equivalence `icsEscape_eq_escSpec` is proved below, and the round trip
is proved against `escSpec`.  The decoder is not part of the
repository; `icsUnescape` is modelled from the spec. -/

/-- Effect of the first three stages (backslash, semicolon, comma) on
a single character. -/
def gchar (a : Char) : List Char :=
  if a = '\\' then ['\\', '\\']
  else if a = ';' then ['\\', ';']
  else if a = ',' then ['\\', ',']
  else [a]

/-- Effect of the full escape on a single character that is not part
of a CRLF pair. -/
def escChar (a : Char) : List Char :=
  if a = '\\' then ['\\', '\\']
  else if a = ';' then ['\\', ';']
  else if a = ',' then ['\\', ',']
  else if a = '\n' then ['\\', 'n']
  else [a]

/-- Single-pass form of `icsEscape`: escape backslash, semicolon,
comma and line breaks, consuming CRLF as one line break. -/
def escSpec : List Char → List Char
  | [] => []
  | [a] => escChar a
  | a :: b :: t =>
    if a = '\r' ∧ b = '\n' then '\\' :: 'n' :: escSpec t
    else escChar a ++ escSpec (b :: t)

/-- Modelled from the spec: the minimal decoder for the wire format's
text escaping (§4.4 round trip) — the inverse substitutions
`\\`→backslash, `\;`→semicolon, `\,`→comma, `\n`→line feed, applied
left to right; an unrecognized escape is kept verbatim.  The
repository contains no decoder. -/
def icsUnescape : List Char → List Char
  | [] => []
  | [a] => [a]
  | a :: b :: t =>
    if a = '\\' then
      (if b = '\\' then ['\\'] else if b = ';' then [';']
       else if b = ',' then [','] else if b = 'n' then ['\n']
       else ['\\', b]) ++ icsUnescape t
    else a :: icsUnescape (b :: t)

/-- Does the list contain a CR immediately followed by an LF? -/
def hasCRLF : List Char → Bool
  | [] => false
  | [_] => false
  | a :: b :: t => (a == '\r' && b == '\n') || hasCRLF (b :: t)

theorem replaceChar_append (c : Char) (r x y : List Char) :
    replaceChar c r (x ++ y) = replaceChar c r x ++ replaceChar c r y := by
  induction x with
  | nil => rfl
  | cons a t ih => simp [replaceChar, ih]

/-- The first three stages of `icsEscape`. -/
def inner3 (l : List Char) : List Char :=
  replaceChar ',' ['\\', ',']
    (replaceChar ';' ['\\', ';'] (replaceChar '\\' ['\\', '\\'] l))

theorem inner3_cons (a : Char) (t : List Char) :
    inner3 (a :: t) = gchar a ++ inner3 t := by
  by_cases h1 : a = '\\'
  · subst h1; simp [inner3, gchar, replaceChar, replaceChar_append]
  · by_cases h2 : a = ';'
    · subst h2; simp [inner3, gchar, replaceChar, replaceChar_append]
    · by_cases h3 : a = ','
      · subst h3; simp [inner3, gchar, replaceChar, replaceChar_append]
      · simp [inner3, gchar, replaceChar, replaceChar_append, h1, h2, h3]

theorem gchar_ne_nil (a : Char) : gchar a ≠ [] := by
  unfold gchar
  split_ifs <;> simp

theorem escChar_ne_nil (a : Char) : escChar a ≠ [] := by
  unfold escChar
  split_ifs <;> simp

theorem inner3_cons_ne_nil (b : Char) (t : List Char) :
    ∃ c rest, inner3 (b :: t) = c :: rest := by
  rw [inner3_cons]
  rcases hg : gchar b with _ | ⟨c, gr⟩
  · exact absurd hg (gchar_ne_nil b)
  · exact ⟨c, gr ++ inner3 t, by simp⟩

theorem inner3_head_ne (b : Char) (t : List Char) (hb : b ≠ '\n') :
    ∃ c rest, inner3 (b :: t) = c :: rest ∧ c ≠ '\n' := by
  rw [inner3_cons]
  by_cases h1 : b = '\\'
  · subst h1
    exact ⟨'\\', '\\' :: inner3 t, by simp [gchar], by decide⟩
  · by_cases h2 : b = ';'
    · subst h2
      exact ⟨'\\', ';' :: inner3 t, by simp [gchar], by decide⟩
    · by_cases h3 : b = ','
      · subst h3
        exact ⟨'\\', ',' :: inner3 t, by simp [gchar], by decide⟩
      · exact ⟨b, inner3 t, by simp [gchar, h1, h2, h3], hb⟩

theorem escSpec_cons_ne_nil (b : Char) (t : List Char) :
    ∃ c rest, escSpec (b :: t) = c :: rest := by
  cases t with
  | nil =>
    rcases hc : escChar b with _ | ⟨c, rest⟩
    · exact absurd hc (escChar_ne_nil b)
    · exact ⟨c, rest, by simp [escSpec, hc]⟩
  | cons b2 t2 =>
    by_cases h : b = '\r' ∧ b2 = '\n'
    · obtain ⟨rfl, rfl⟩ := h
      exact ⟨'\\', 'n' :: escSpec t2, by simp [escSpec]⟩
    · rcases hc : escChar b with _ | ⟨c, rest⟩
      · exact absurd hc (escChar_ne_nil b)
      · exact ⟨c, rest ++ escSpec (b2 :: t2), by simp [escSpec, h, hc]⟩

theorem icsEscape_eq_escSpec (l : List Char) : icsEscape l = escSpec l := by
  have H : ∀ n : Nat, ∀ l : List Char, l.length ≤ n →
      replaceCRLF (inner3 l) = escSpec l := by
    intro n
    induction n with
    | zero =>
      intro l hl
      have : l = [] := List.eq_nil_of_length_eq_zero (Nat.le_zero.mp hl)
      subst this
      rfl
    | succ n ih =>
      intro l hl
      rcases l with _ | ⟨a, rest⟩
      · rfl
      · rcases rest with _ | ⟨b, t⟩
        · -- singleton
          have h1 : inner3 [a] = gchar a := by
            rw [inner3_cons]
            simp [inner3, replaceChar]
          rw [h1]
          by_cases ha1 : a = '\\'
          · subst ha1; rfl
          · by_cases ha2 : a = ';'
            · subst ha2; rfl
            · by_cases ha3 : a = ','
              · subst ha3; rfl
              · by_cases ha4 : a = '\n'
                · subst ha4; rfl
                · simp [gchar, escSpec, escChar, replaceCRLF,
                    ha1, ha2, ha3, ha4]
        · -- two or more characters
          have hlt : t.length ≤ n := by
            simp only [List.length_cons] at hl
            omega
          have hlbt : (b :: t).length ≤ n := by
            simp only [List.length_cons] at hl ⊢
            omega
          by_cases hab : a = '\r' ∧ b = '\n'
          · obtain ⟨rfl, rfl⟩ := hab
            rw [inner3_cons, inner3_cons]
            have hg1 : gchar '\r' = ['\r'] := by decide
            have hg2 : gchar '\n' = ['\n'] := by decide
            rw [hg1, hg2]
            simp only [List.cons_append, List.nil_append]
            rw [show replaceCRLF ('\r' :: '\n' :: inner3 t) =
                '\\' :: 'n' :: replaceCRLF (inner3 t) by
              simp [replaceCRLF]]
            rw [ih t hlt]
            simp [escSpec]
          · by_cases ha : a = '\n'
            · subst ha
              obtain ⟨c, cr, hcr⟩ := inner3_cons_ne_nil b t
              rw [inner3_cons, hcr]
              have h2 : gchar '\n' = ['\n'] := by decide
              rw [h2]
              simp only [List.cons_append, List.nil_append]
              rw [show replaceCRLF ('\n' :: c :: cr) =
                  '\\' :: 'n' :: replaceCRLF (c :: cr) by
                simp [replaceCRLF]]
              rw [← hcr, ih (b :: t) hlbt]
              have hb : ¬ ('\n' = '\r' ∧ b = '\n') := by
                intro hx; exact absurd hx.1 (by decide)
              simp [escSpec, escChar, hb]
            · by_cases hesc : a = '\\' ∨ a = ';' ∨ a = ','
              · have hg : gchar a = ['\\', a] := by
                  rcases hesc with h | h | h <;> subst h <;> decide
                have hec : escChar a = ['\\', a] := by
                  rcases hesc with h | h | h <;> subst h <;> decide
                have har : a ≠ '\r' := by
                  rcases hesc with h | h | h <;> subst h <;> decide
                obtain ⟨c, cr, hcr⟩ := inner3_cons_ne_nil b t
                rw [inner3_cons, hg, hcr]
                simp only [List.cons_append, List.nil_append]
                rw [show replaceCRLF ('\\' :: a :: c :: cr) =
                    '\\' :: replaceCRLF (a :: c :: cr) by
                  simp [replaceCRLF]]
                rw [show replaceCRLF (a :: c :: cr) =
                    a :: replaceCRLF (c :: cr) by
                  simp [replaceCRLF, ha, har]]
                rw [← hcr, ih (b :: t) hlbt]
                have hnab : ¬ (a = '\r' ∧ b = '\n') := fun hx => har hx.1
                simp [escSpec, hec, hnab]
              · push_neg at hesc
                obtain ⟨hx1, hx2, hx3⟩ := hesc
                have hg : gchar a = [a] := by simp [gchar, hx1, hx2, hx3]
                by_cases har : a = '\r'
                · subst har
                  have hbn : b ≠ '\n' := fun hx => hab ⟨rfl, hx⟩
                  obtain ⟨c, cr, hcr, hcn⟩ := inner3_head_ne b t hbn
                  rw [inner3_cons, hg, hcr]
                  simp only [List.cons_append, List.nil_append]
                  rw [show replaceCRLF ('\r' :: c :: cr) =
                      '\r' :: replaceCRLF (c :: cr) by
                    simp [replaceCRLF, hcn]]
                  rw [← hcr, ih (b :: t) hlbt]
                  simp [escSpec, escChar, hbn]
                · obtain ⟨c, cr, hcr⟩ := inner3_cons_ne_nil b t
                  rw [inner3_cons, hg, hcr]
                  simp only [List.cons_append, List.nil_append]
                  rw [show replaceCRLF (a :: c :: cr) =
                      a :: replaceCRLF (c :: cr) by
                    simp [replaceCRLF, ha, har]]
                  rw [← hcr, ih (b :: t) hlbt]
                  have hnab : ¬ (a = '\r' ∧ b = '\n') := fun hx => har hx.1
                  simp [escSpec, escChar, hnab, hx1, hx2, hx3, ha]
  exact H l.length l le_rfl

theorem icsUnescape_escSpec (l : List Char) (h : hasCRLF l = false) :
    icsUnescape (escSpec l) = l := by
  have H : ∀ n : Nat, ∀ l : List Char, l.length ≤ n →
      hasCRLF l = false → icsUnescape (escSpec l) = l := by
    intro n
    induction n with
    | zero =>
      intro l hl _
      have : l = [] := List.eq_nil_of_length_eq_zero (Nat.le_zero.mp hl)
      subst this
      rfl
    | succ n ih =>
      intro l hl hcr
      rcases l with _ | ⟨a, rest⟩
      · rfl
      · rcases rest with _ | ⟨b, t⟩
        · by_cases ha1 : a = '\\'
          · subst ha1; rfl
          · by_cases ha2 : a = ';'
            · subst ha2; rfl
            · by_cases ha3 : a = ','
              · subst ha3; rfl
              · by_cases ha4 : a = '\n'
                · subst ha4; rfl
                · simp [escSpec, escChar, icsUnescape,
                    ha1, ha2, ha3, ha4]
        · have hlbt : (b :: t).length ≤ n := by
            simp only [List.length_cons] at hl ⊢
            omega
          have hnab : ¬ (a = '\r' ∧ b = '\n') := by
            intro hx
            simp only [hasCRLF, hx.1, hx.2, Bool.or_eq_false_iff] at hcr
            exact absurd hcr.1 (by decide)
          have hcrbt : hasCRLF (b :: t) = false := by
            simp only [hasCRLF, Bool.or_eq_false_iff] at hcr
            exact hcr.2
          have hesc : escSpec (a :: b :: t) = escChar a ++ escSpec (b :: t) := by
            simp [escSpec, hnab]
          rw [hesc]
          obtain ⟨c, cr, hcr2⟩ := escSpec_cons_ne_nil b t
          by_cases ha1 : a = '\\'
          · subst ha1
            simp only [escChar, reduceIte, List.cons_append, List.nil_append]
            rw [show icsUnescape ('\\' :: '\\' :: escSpec (b :: t)) =
                ['\\'] ++ icsUnescape (escSpec (b :: t)) by
              simp [icsUnescape]]
            rw [ih (b :: t) hlbt hcrbt]
            rfl
          · by_cases ha2 : a = ';'
            · subst ha2
              have he : escChar ';' = ['\\', ';'] := by decide
              rw [he]
              simp only [List.cons_append, List.nil_append]
              rw [show icsUnescape ('\\' :: ';' :: escSpec (b :: t)) =
                  [';'] ++ icsUnescape (escSpec (b :: t)) by
                simp [icsUnescape]]
              rw [ih (b :: t) hlbt hcrbt]
              rfl
            · by_cases ha3 : a = ','
              · subst ha3
                have he : escChar ',' = ['\\', ','] := by decide
                rw [he]
                simp only [List.cons_append, List.nil_append]
                rw [show icsUnescape ('\\' :: ',' :: escSpec (b :: t)) =
                    [','] ++ icsUnescape (escSpec (b :: t)) by
                  simp [icsUnescape]]
                rw [ih (b :: t) hlbt hcrbt]
                rfl
              · by_cases ha4 : a = '\n'
                · subst ha4
                  have he : escChar '\n' = ['\\', 'n'] := by decide
                  rw [he]
                  simp only [List.cons_append, List.nil_append]
                  rw [show icsUnescape ('\\' :: 'n' :: escSpec (b :: t)) =
                      ['\n'] ++ icsUnescape (escSpec (b :: t)) by
                    simp [icsUnescape]]
                  rw [ih (b :: t) hlbt hcrbt]
                  rfl
                · have he : escChar a = [a] := by
                    simp [escChar, ha1, ha2, ha3, ha4]
                  rw [he, hcr2]
                  simp only [List.cons_append, List.nil_append]
                  rw [show icsUnescape (a :: c :: cr) =
                      a :: icsUnescape (c :: cr) by
                    simp [icsUnescape, ha1]]
                  rw [← hcr2, ih (b :: t) hlbt hcrbt]
  exact H l.length l le_rfl h

/-- C2 counterexample: the claim fails on a string whose line break is
CRLF.  Escaping `"\r\n"` and `"\n"` gives the same two characters
backslash-`n`, so the escape is not injective — no decoder can recover
every string containing line breaks — and the modelled minimal decoder
recovers `"\n"`, not `"\r\n"`. -/
theorem escape_roundtrip_counterexample :
    icsEscape ['\r', '\n'] = icsEscape ['\n'] ∧
    (['\r', '\n'] : List Char) ≠ ['\n'] ∧
    icsUnescape (icsEscape ['\r', '\n']) ≠ ['\r', '\n'] := by decide

/-- C2 (amended): decoding the escaped form recovers the original for
every string containing no CRLF sequence — in particular every string
containing backslash, semicolon, comma, and LF line breaks; a CRLF
line break is collapsed to LF by the escape, which is the one
exception the counterexample forces. -/
theorem escape_roundtrip (s : String) (h : hasCRLF s.data = false) :
    icsUnescape (icsEscape s.data) = s.data := by
  rw [icsEscape_eq_escSpec]
  exact icsUnescape_escSpec s.data h

/-- Witness for `escape_roundtrip` on a string containing backslash,
semicolon, comma and an LF line break. -/
theorem escape_roundtrip_witness :
    hasCRLF "a\\b;c,d\ne".data = false ∧
    icsUnescape (icsEscape "a\\b;c,d\ne".data) = "a\\b;c,d\ne".data :=
  ⟨by decide, escape_roundtrip "a\\b;c,d\ne" (by decide)⟩

end CalendarPush
